import Mathlib

/-!
A shallow embedding of the kvapi server (main.go): the bounded in-memory
key-value store, the CIDR access-control layer with its three firewall
modes, the HTTP route handlers with their catch-all, and the UDP command
dispatcher.  Lean `String` models Go `string`; `byteLen` models
`len([]byte(s))`; the `map[string]string` is modelled as an association
list whose keys the operations keep pairwise distinct, so that its length
is the map's key count.
-/

set_option maxRecDepth 10000

deriving instance DecidableEq for Except

namespace Kvapi

/-- `MaxKeySize` from main.go. -/
def MaxKeySize : Nat := 255

/-- `MaxValueSize` from main.go (1 MB). -/
def MaxValueSize : Nat := 1048576

/-- `MaxKeyCount` from main.go. -/
def MaxKeyCount : Nat := 100

/-- Models Go `len([]byte(s))`: the UTF-8 byte length of a string. -/
def byteLen (s : String) : Nat := s.data.foldl (fun n c => n + c.utf8Size) 0

/-- The contents of `KeyValueStore.store`, a Go `map[string]string`. -/
abbrev Store := List (String × String)

/-- `KeyValueStore.Get`: look a key up, `none` on a miss (Go `found=false`). -/
def storeGet : Store → String → Option String
  | [], _ => none
  | (k', v) :: rest, k => if k' = k then some v else storeGet rest k

/-- The three failure cases of `KeyValueStore.Set`. -/
inductive SetError where
  | keyTooLarge
  | valueTooLarge
  | capacityExceeded
deriving DecidableEq

/-- The error strings `KeyValueStore.Set` produces with `fmt.Errorf`. -/
def SetError.text : SetError → String
  | .keyTooLarge => "key exceeds maximum size of 255 bytes"
  | .valueTooLarge => "value exceeds maximum size of 1048576 bytes"
  | .capacityExceeded => "maximum number of keys (100) reached"

/-- The overwriting branch of `kvs.store[key] = value` for a present key. -/
def replaceVal (s : Store) (k v : String) : Store :=
  s.map fun p => if p.1 = k then (k, v) else p

/-- `KeyValueStore.Set`: the two size checks run first, then the capacity
check for a key not yet present, then the map assignment (overwrite for a
present key, insertion for a new one). -/
def storeSet (s : Store) (k v : String) : Except SetError Store :=
  if MaxKeySize < byteLen k then .error .keyTooLarge
  else if MaxValueSize < byteLen v then .error .valueTooLarge
  else
    match storeGet s k with
    | some _ => .ok (replaceVal s k v)
    | none =>
      if MaxKeyCount ≤ s.length then .error .capacityExceeded
      else .ok (s ++ [(k, v)])

/-- The store state after a `Set` call: updated on success, untouched when
the call returned early with an error (the Go method only assigns into the
map after every check has passed). -/
def storeAfterSet (s : Store) (k v : String) : Store :=
  match storeSet s k v with
  | .ok s' => s'
  | .error _ => s

/-- `StatusInfo` from main.go (`key_count`, `memory_usage_bytes`). -/
structure StatusInfo where
  keyCount : Nat
  memoryUsage : Nat
deriving DecidableEq

/-- `KeyValueStore.GetStatus`: the key count and the summed byte size of
every key and value, computed by one pass over the map. -/
def getStatus (s : Store) : StatusInfo :=
  { keyCount := s.length
    memoryUsage := s.foldl (fun acc p => acc + (byteLen p.1 + byteLen p.2)) 0 }

/-- `APIResponse` from main.go.  The timestamp field never participates in
any behavioural contract and is omitted.  `data` is only ever `nil` or a
`StatusInfo` in the program. -/
structure APIResponse where
  status : Nat
  message : String
  key : String := ""
  value : String := ""
  data : Option StatusInfo := none
deriving DecidableEq

/-- The JSON object a caller receives: the `omitempty` struct tags drop an
empty key and an empty value from the encoded response. -/
structure WireResponse where
  status : Nat
  message : String
  key : Option String
  value : Option String
  data : Option StatusInfo
deriving DecidableEq

/-- JSON marshalling of an `APIResponse` under the struct tags of main.go. -/
def marshal (r : APIResponse) : WireResponse :=
  { status := r.status
    message := r.message
    key := if r.key = "" then none else some r.key
    value := if r.value = "" then none else some r.value
    data := r.data }

/-- `sendJSONResponse`: key and value are attached only to status-200
responses that carry a non-empty key; `data` is attached whenever present. -/
def sendJSONResponse (status : Nat) (message key value : String)
    (data : Option StatusInfo) : APIResponse :=
  let r : APIResponse := { status := status, message := message }
  let r := if status = 200 ∧ key ≠ "" then { r with key := key, value := value } else r
  match data with
  | some d => { r with data := some d }
  | none => r

/-- A parsed IPv4 CIDR (`net.IPNet`): network base address and prefix
length.  `contains` models `IPNet.Contains`: the bits above the prefix
boundary must agree. -/
structure IPNet where
  base : Nat
  prefixLen : Nat
deriving DecidableEq

def IPNet.contains (c : IPNet) (ip : Nat) : Bool :=
  ip % 2 ^ 32 / 2 ^ (32 - c.prefixLen) == c.base % 2 ^ 32 / 2 ^ (32 - c.prefixLen)

/-- `AccessControl` from main.go; the mode is the Go string field. -/
structure AccessControl where
  allowedCIDR : Option IPNet
  firewallMode : String
deriving DecidableEq

/-- The flag-to-mode mapping in `main`: `--fw-drop` (or the deprecated
`--simulate-firewall`) wins, then `--fw-reject`, otherwise "ACCEPT". -/
def firewallModeOfFlags (fwDrop fwReject simulateFirewall : Bool) : String :=
  if fwDrop || simulateFirewall then "DROP"
  else if fwReject then "REJECT"
  else "ACCEPT"

/-- An inbound HTTP request: method, URL path, the source IP parsed out of
`RemoteAddr` (`none` when unparseable), and the decoded query parameters. -/
structure HttpRequest where
  method : String
  path : String
  remoteIP : Option Nat
  query : List (String × String)

/-- `url.Values.Get`: the first value of the named parameter, "" if absent. -/
def queryGet : List (String × String) → String → String
  | [], _ => ""
  | (n, v) :: rest, name => if n = name then v else queryGet rest name

/-- An HTTP handler body: request and store in, response and store out. -/
abbrev HttpHandler := HttpRequest → Store → APIResponse × Store

/-- What the HTTP transport does with a request: write a response, or (DROP
mode) hijack the connection and close it without writing a byte. -/
inductive HttpOutcome where
  | response (r : APIResponse)
  | silentClose
deriving DecidableEq

/-- `accessMiddleware`: with no configured CIDR everything proceeds;
otherwise the source IP is parsed (500 on failure) and checked against the
range, and a miss is handled by firewall mode — DROP hijacks and closes the
connection silently, REJECT and the default (ACCEPT) answer 403. -/
def accessMiddleware (ac : AccessControl) (next : HttpHandler) (req : HttpRequest)
    (s : Store) : HttpOutcome × Store :=
  match ac.allowedCIDR with
  | none =>
    let rs := next req s
    (.response rs.1, rs.2)
  | some cidr =>
    match req.remoteIP with
    | none => (.response (sendJSONResponse 500 "Failed to parse client IP" "" "" none), s)
    | some ip =>
      if cidr.contains ip then
        let rs := next req s
        (.response rs.1, rs.2)
      else if ac.firewallMode = "DROP" then (.silentClose, s)
      else if ac.firewallMode = "REJECT" then
        (.response (sendJSONResponse 403
          "Connection rejected by firewall: Your IP is not in the allowed range" "" "" none), s)
      else
        (.response (sendJSONResponse 403
          "Access denied: Your IP is not in the allowed range" "" "" none), s)

/-- The `/api/ping` handler registered in `main`. -/
def pingHandler : HttpHandler := fun req s =>
  if req.method ≠ "GET" then (sendJSONResponse 405 "Method not allowed" "" "" none, s)
  else (sendJSONResponse 200 "PONG" "ping" "PONG" none, s)

/-- The `/api/status` handler registered in `main`. -/
def statusHandler : HttpHandler := fun req s =>
  if req.method ≠ "GET" then (sendJSONResponse 405 "Method not allowed" "" "" none, s)
  else (sendJSONResponse 200 "Status retrieved successfully" "status" "" (some (getStatus s)), s)

/-- The `/api/get` handler registered in `main`. -/
def getHandler : HttpHandler := fun req s =>
  if req.method ≠ "GET" then (sendJSONResponse 405 "Method not allowed" "" "" none, s)
  else
    let key := queryGet req.query "k"
    if key = "" then (sendJSONResponse 400 "Missing key parameter" "" "" none, s)
    else
      match storeGet s key with
      | none => (sendJSONResponse 404 ("Key '" ++ key ++ "' not found") key "" none, s)
      | some v => (sendJSONResponse 200 "Key retrieved successfully" key v none, s)

/-- The `/api/set` handler registered in `main`. -/
def setHandler : HttpHandler := fun req s =>
  if req.method ≠ "POST" ∧ req.method ≠ "PUT" then
    (sendJSONResponse 405 "Method not allowed" "" "" none, s)
  else
    let key := queryGet req.query "k"
    let value := queryGet req.query "v"
    if key = "" then (sendJSONResponse 400 "Missing key parameter" "" "" none, s)
    else if value = "" then (sendJSONResponse 400 "Missing value parameter" "" "" none, s)
    else
      match storeSet s key value with
      | .error e => (sendJSONResponse 400 e.text key "" none, s)
      | .ok s' => (sendJSONResponse 200 "Key set successfully" key value none, s')

/-- The catch-all 404 handler registered in `main`; note that it is not
wrapped in `accessMiddleware`. -/
def notFoundHandler (req : HttpRequest) (s : Store) : APIResponse × Store :=
  (sendJSONResponse 404 ("Route '" ++ req.path ++ "' not found") "" "" none, s)

/-- The top-level HTTP handler built in `main`: each of the four registered
routes runs behind `accessMiddleware`; every other path falls through to
`notFoundHandler` directly. -/
def httpServe (ac : AccessControl) (req : HttpRequest) (s : Store) : HttpOutcome × Store :=
  if req.path = "/api/ping" then accessMiddleware ac pingHandler req s
  else if req.path = "/api/status" then accessMiddleware ac statusHandler req s
  else if req.path = "/api/get" then accessMiddleware ac getHandler req s
  else if req.path = "/api/set" then accessMiddleware ac setHandler req s
  else
    let rs := notFoundHandler req s
    (.response rs.1, rs.2)

/-- Go `unicode.IsSpace` restricted to the ASCII whitespace a datagram of
this protocol can carry (space, tab, newline, carriage return). -/
def isSpaceChar (c : Char) : Bool := c = ' ' || c = '\t' || c = '\n' || c = '\r'

/-- Accumulator pass behind `fields`. -/
def fieldsAux : List Char → List Char → List String
  | [], acc => if acc.isEmpty then [] else [String.mk acc.reverse]
  | c :: cs, acc =>
    if isSpaceChar c then
      if acc.isEmpty then fieldsAux cs []
      else String.mk acc.reverse :: fieldsAux cs []
    else fieldsAux cs (c :: acc)

/-- Go `strings.Fields`: the maximal whitespace-free substrings, in order. -/
def fields (s : String) : List String := fieldsAux s.data []

/-- Go `strings.ToUpper` (the protocol verbs are ASCII). -/
def toUpperStr (s : String) : String := String.mk (s.data.map Char.toUpper)

/-- The command-processing part of `handleUDPCommand` (everything after the
access check): tokenize the datagram and dispatch on the upper-cased verb.
Returns the response and the store that results. -/
def udpDispatch (command : String) (s : Store) : APIResponse × Store :=
  match fields command with
  | [] => ({ status := 400, message := "Empty command" }, s)
  | p0 :: rest =>
    let action := toUpperStr p0
    if action = "PING" then
      ({ status := 200, message := "PONG", key := "ping", value := "PONG" }, s)
    else if action = "STATUS" then
      ({ status := 200, message := "Status retrieved successfully", key := "status",
         data := some (getStatus s) }, s)
    else if action = "GET" then
      match rest with
      | [] => ({ status := 400, message := "Missing key parameter" }, s)
      | key :: _ =>
        match storeGet s key with
        | none =>
          ({ status := 404, message := "Key '" ++ key ++ "' not found", key := key }, s)
        | some v =>
          ({ status := 200, message := "Key retrieved successfully", key := key,
             value := v }, s)
    else if action = "SET" then
      match rest with
      | [] => ({ status := 400, message := "Missing key parameter" }, s)
      | [_] => ({ status := 400, message := "Missing value parameter" }, s)
      | key :: vtok :: vtoks =>
        let value := String.intercalate " " (vtok :: vtoks)
        match storeSet s key value with
        | .error e => ({ status := 400, message := e.text, key := key }, s)
        | .ok s' =>
          ({ status := 200, message := "Key set successfully", key := key,
             value := value }, s')
    else ({ status := 400, message := "Unknown command: " ++ action }, s)

/-- `handleUDPCommand`: the access check runs ahead of the dispatch; in
DROP mode the handler produces no response at all (Go returns nil). -/
def handleUDPCommand (command : String) (ip : Nat) (ac : AccessControl) (s : Store) :
    Option APIResponse × Store :=
  match ac.allowedCIDR with
  | some cidr =>
    if cidr.contains ip then
      let rs := udpDispatch command s
      (some rs.1, rs.2)
    else if ac.firewallMode = "DROP" then (none, s)
    else if ac.firewallMode = "REJECT" then
      (some { status := 403,
              message := "Connection rejected by firewall: Your IP is not in the allowed range" }, s)
    else
      (some { status := 403,
              message := "Access denied: Your IP is not in the allowed range" }, s)
  | none =>
    let rs := udpDispatch command s
    (some rs.1, rs.2)

/-- Go `strings.TrimSpace` restricted to the ASCII whitespace of
`isSpaceChar`: leading and trailing whitespace removed. -/
def trimSpace (s : String) : String :=
  String.mk (((s.data.dropWhile isSpaceChar).reverse.dropWhile isSpaceChar).reverse)

/-- The payload of the datagram `startUDPServer` sends back to the caller:
the marshalled JSON response, or the zero-length datagram that results from
writing the nil slice. -/
inductive UdpReply where
  | json (r : WireResponse)
  | emptyDatagram
deriving DecidableEq

/-- One iteration of the receive loop in `startUDPServer`: the datagram
text is trimmed, handed to `handleUDPCommand`, and the resulting response
slice is passed to `conn.WriteToUDP` unconditionally.  A result of `none`
would mean no send at all, but the loop has no such path: when the handler
returned nil (DROP mode) what is transmitted is a zero-length datagram. -/
def udpServe (command : String) (ip : Nat) (ac : AccessControl) (s : Store) :
    Option UdpReply × Store :=
  let rs := handleUDPCommand (trimSpace command) ip ac s
  match rs.1 with
  | some r => (some (.json (marshal r)), rs.2)
  | none => (some .emptyDatagram, rs.2)

/-- A run of `Set` calls against the empty store: the only mutations any
client can cause (`Get` and `GetStatus` leave the store untouched). -/
def runOps (ops : List (String × String)) : Store :=
  ops.foldl (fun s kv => storeAfterSet s kv.1 kv.2) []

/-- The store invariants: bounded keys and values, bounded count, pairwise
distinct keys. -/
def StoreInv (s : Store) : Prop :=
  (∀ p ∈ s, byteLen p.1 ≤ MaxKeySize ∧ byteLen p.2 ≤ MaxValueSize) ∧
  s.length ≤ MaxKeyCount ∧ (s.map Prod.fst).Nodup

/-- One hundred `Set` calls with one hundred distinct small keys. -/
def ops100 : List (String × String) :=
  (List.range 100).map fun i => ("k" ++ toString i, "v")

/-- A store holding one hundred distinct keys. -/
def fullStore : Store := (List.range 100).map fun i => ("k" ++ toString i, "v")

/-- A 256-byte key, one byte over the limit. -/
def keyA256 : String := String.mk (List.replicate 256 'a')

/-- Another 256-byte key. -/
def keyB256 : String := String.mk (List.replicate 256 'b')

/-- The CIDR 192.168.1.0/24. -/
def cidr24 : IPNet := { base := 0xC0A80100, prefixLen := 24 }

/-- The address 10.0.0.1, outside `cidr24`. -/
def ip10 : Nat := 0x0A000001

/-! ### Lemmas about the store operations -/

theorem storeGet_eq_none_iff (s : Store) (k : String) :
    storeGet s k = none ↔ ∀ p ∈ s, p.1 ≠ k := by
  induction s with
  | nil => simp [storeGet]
  | cons p rest ih =>
    obtain ⟨k', v⟩ := p
    by_cases h : k' = k
    · subst h
      simp [storeGet]
    · simp [storeGet, h, ih]

theorem storeGet_mem {s : Store} {k w : String} (h : storeGet s k = some w) :
    (k, w) ∈ s := by
  induction s with
  | nil => simp [storeGet] at h
  | cons p rest ih =>
    obtain ⟨k', v⟩ := p
    by_cases hk : k' = k
    · subst hk
      simp [storeGet] at h
      subst h
      exact List.mem_cons_self _ _
    · simp [storeGet, hk] at h
      exact List.mem_cons_of_mem _ (ih h)

theorem storeGet_append_self {s : Store} {k : String} (v : String)
    (h : storeGet s k = none) : storeGet (s ++ [(k, v)]) k = some v := by
  induction s with
  | nil => simp [storeGet]
  | cons p rest ih =>
    obtain ⟨k', w⟩ := p
    by_cases hk : k' = k
    · subst hk
      simp [storeGet] at h
    · simp [storeGet, hk] at h ⊢
      exact ih h

theorem storeGet_replaceVal_self {s : Store} {k w : String} (v : String)
    (h : storeGet s k = some w) : storeGet (replaceVal s k v) k = some v := by
  induction s with
  | nil => simp [storeGet] at h
  | cons p rest ih =>
    obtain ⟨k', u⟩ := p
    by_cases hk : k' = k
    · subst hk
      simp only [replaceVal, List.map_cons]
      simp [storeGet]
    · simp [storeGet, hk] at h
      simp only [replaceVal, List.map_cons] at ih ⊢
      rw [if_neg hk]
      simp only [storeGet, hk, if_neg]
      exact ih h

theorem length_replaceVal (s : Store) (k v : String) :
    (replaceVal s k v).length = s.length := by
  simp [replaceVal]

theorem keys_replaceVal (s : Store) (k v : String) :
    (replaceVal s k v).map Prod.fst = s.map Prod.fst := by
  induction s with
  | nil => rfl
  | cons p rest ih =>
    simp only [replaceVal, List.map_cons] at ih ⊢
    by_cases h : p.1 = k
    · simp [h, ih]
    · simp [h, ih]

theorem mem_replaceVal {s : Store} {k v : String} {q : String × String}
    (h : q ∈ replaceVal s k v) : q ∈ s ∨ q = (k, v) := by
  simp only [replaceVal, List.mem_map] at h
  obtain ⟨p, hp, hq⟩ := h
  by_cases hk : p.1 = k
  · right
    rw [if_pos hk] at hq
    exact hq.symm
  · left
    rw [if_neg hk] at hq
    exact hq ▸ hp

theorem storeGet_of_storeSet_ok {s s' : Store} {k v : String}
    (h : storeSet s k v = .ok s') : storeGet s' k = some v := by
  unfold storeSet at h
  by_cases h1 : MaxKeySize < byteLen k
  · simp [h1] at h
  by_cases h2 : MaxValueSize < byteLen v
  · simp [h1, h2] at h
  cases hget : storeGet s k with
  | some w =>
    simp [h1, h2, hget] at h
    subst h
    exact storeGet_replaceVal_self v hget
  | none =>
    by_cases h3 : MaxKeyCount ≤ s.length
    · simp [h1, h2, hget, h3] at h
    · simp [h1, h2, hget, h3] at h
      subst h
      exact storeGet_append_self v hget

theorem storeSet_ok_of_room (s : Store) (k v : String)
    (h1 : byteLen k ≤ MaxKeySize) (h2 : byteLen v ≤ MaxValueSize)
    (h3 : storeGet s k ≠ none ∨ s.length < MaxKeyCount) :
    ∃ s', storeSet s k v = .ok s' := by
  unfold storeSet
  rw [if_neg (Nat.not_lt.mpr h1), if_neg (Nat.not_lt.mpr h2)]
  cases hget : storeGet s k with
  | some w => exact ⟨_, rfl⟩
  | none =>
    rcases h3 with h3 | h3
    · exact absurd hget h3
    · rw [if_neg (Nat.not_le.mpr h3)]
      exact ⟨_, rfl⟩

theorem storeInv_nil : StoreInv [] :=
  ⟨by simp, Nat.zero_le _, List.nodup_nil⟩

theorem storeInv_of_ok {s s' : Store} {k v : String} (hinv : StoreInv s)
    (h : storeSet s k v = .ok s') : StoreInv s' := by
  unfold storeSet at h
  by_cases h1 : MaxKeySize < byteLen k
  · simp [h1] at h
  by_cases h2 : MaxValueSize < byteLen v
  · simp [h1, h2] at h
  cases hget : storeGet s k with
  | some w =>
    simp [h1, h2, hget] at h
    subst h
    refine ⟨?_, ?_, ?_⟩
    · intro p hp
      rcases mem_replaceVal hp with hp | rfl
      · exact hinv.1 p hp
      · exact ⟨Nat.not_lt.mp h1, Nat.not_lt.mp h2⟩
    · rw [length_replaceVal]
      exact hinv.2.1
    · rw [keys_replaceVal]
      exact hinv.2.2
  | none =>
    by_cases h3 : MaxKeyCount ≤ s.length
    · simp [h1, h2, hget, h3] at h
    · simp [h1, h2, hget, h3] at h
      subst h
      have hknotin : k ∉ s.map Prod.fst := by
        intro hmem
        rcases List.mem_map.mp hmem with ⟨p, hp, hpk⟩
        exact ((storeGet_eq_none_iff s k).mp hget p hp) hpk
      refine ⟨?_, ?_, ?_⟩
      · intro p hp
        rcases List.mem_append.mp hp with hp | hp
        · exact hinv.1 p hp
        · rcases List.mem_singleton.mp hp with rfl
          exact ⟨Nat.not_lt.mp h1, Nat.not_lt.mp h2⟩
      · rw [List.length_append]
        simpa using Nat.succ_le_of_lt (Nat.lt_of_not_le h3)
      · rw [List.map_append]
        refine (List.nodup_append).mpr ⟨hinv.2.2, List.nodup_singleton _, ?_⟩
        intro a ha hb
        rcases List.mem_singleton.mp hb with rfl
        exact hknotin ha

theorem storeInv_storeAfterSet {s : Store} (hinv : StoreInv s) (k v : String) :
    StoreInv (storeAfterSet s k v) := by
  unfold storeAfterSet
  cases h : storeSet s k v with
  | ok s' => exact storeInv_of_ok hinv h
  | error e => exact hinv

theorem storeInv_foldl (ops : List (String × String)) :
    ∀ s : Store, StoreInv s →
      StoreInv (ops.foldl (fun t kv => storeAfterSet t kv.1 kv.2) s) := by
  induction ops with
  | nil => exact fun s h => h
  | cons kv rest ih =>
    intro s h
    exact ih _ (storeInv_storeAfterSet h kv.1 kv.2)

theorem storeInv_runOps (ops : List (String × String)) : StoreInv (runOps ops) :=
  storeInv_foldl ops [] storeInv_nil

theorem foldl_add_eq_sum (l : List (String × String)) (n : Nat) :
    l.foldl (fun acc p => acc + (byteLen p.1 + byteLen p.2)) n =
      n + (l.map fun p => byteLen p.1 + byteLen p.2).sum := by
  induction l generalizing n with
  | nil => simp
  | cons p rest ih =>
    simp [ih, Nat.add_assoc]

/-! ### Claim C1 -/

/-- Claim C1, amended: `Set` fails with a key-size error iff the key
exceeds 255 bytes; with a value-size error iff the key is within bounds
and the value exceeds 1048576 bytes; with a capacity error iff both sizes
are within bounds, the key is not present, and the store already holds at
least 100 distinct keys (the three checks run in that priority order);
otherwise it succeeds; and every failure leaves the store unchanged. -/
theorem set_error_characterization (s : Store) (k v : String)
    (hnd : (s.map Prod.fst).Nodup) :
    (storeSet s k v = .error .keyTooLarge ↔ MaxKeySize < byteLen k) ∧
    (storeSet s k v = .error .valueTooLarge ↔
      byteLen k ≤ MaxKeySize ∧ MaxValueSize < byteLen v) ∧
    (storeSet s k v = .error .capacityExceeded ↔
      byteLen k ≤ MaxKeySize ∧ byteLen v ≤ MaxValueSize ∧ storeGet s k = none ∧
      MaxKeyCount ≤ ((s.map Prod.fst).dedup).length) ∧
    ((byteLen k ≤ MaxKeySize ∧ byteLen v ≤ MaxValueSize ∧
      (storeGet s k ≠ none ∨ ((s.map Prod.fst).dedup).length < MaxKeyCount)) →
      ∃ s', storeSet s k v = .ok s') ∧
    (∀ e, storeSet s k v = .error e → storeAfterSet s k v = s) := by
  have hdl : ((s.map Prod.fst).dedup).length = s.length := by
    rw [hnd.dedup, List.length_map]
  rw [hdl]
  by_cases h1 : MaxKeySize < byteLen k
  · have hres : storeSet s k v = .error .keyTooLarge := by
      simp [storeSet, h1]
    have hunch : storeAfterSet s k v = s := by
      unfold storeAfterSet
      rw [hres]
    refine ⟨?_, ?_, ?_, ?_, ?_⟩
    · simp [hres, h1]
    · simp [hres, Nat.not_le.mpr h1]
    · simp [hres, Nat.not_le.mpr h1]
    · exact fun hc => absurd hc.1 (Nat.not_le.mpr h1)
    · exact fun e _ => hunch
  · have hK : byteLen k ≤ MaxKeySize := Nat.not_lt.mp h1
    by_cases h2 : MaxValueSize < byteLen v
    · have hres : storeSet s k v = .error .valueTooLarge := by
        simp [storeSet, h1, h2]
      have hunch : storeAfterSet s k v = s := by
        unfold storeAfterSet
        rw [hres]
      refine ⟨?_, ?_, ?_, ?_, ?_⟩
      · simp [hres, h1]
      · simp [hres, hK, h2]
      · simp [hres, Nat.not_le.mpr h2]
      · exact fun hc => absurd hc.2.1 (Nat.not_le.mpr h2)
      · exact fun e _ => hunch
    · have hV : byteLen v ≤ MaxValueSize := Nat.not_lt.mp h2
      cases hget : storeGet s k with
      | some w =>
        have hres : storeSet s k v = .ok (replaceVal s k v) := by
          simp [storeSet, h1, h2, hget]
        refine ⟨?_, ?_, ?_, ?_, ?_⟩
        · simp [hres, h1]
        · simp [hres, h2]
        · simp [hres, hget]
        · exact fun _ => ⟨_, hres⟩
        · intro e he
          rw [hres] at he
          simp at he
      | none =>
        by_cases h3 : MaxKeyCount ≤ s.length
        · have hres : storeSet s k v = .error .capacityExceeded := by
            simp [storeSet, h1, h2, hget, h3]
          have hunch : storeAfterSet s k v = s := by
            unfold storeAfterSet
            rw [hres]
          refine ⟨?_, ?_, ?_, ?_, ?_⟩
          · simp [hres, h1]
          · simp [hres, h2]
          · simp [hres, hK, hV, hget, h3]
          · intro hc
            rcases hc.2.2 with hne | hlt
            · exact absurd rfl hne
            · exact absurd h3 (Nat.not_le.mpr hlt)
          · exact fun e _ => hunch
        · have hres : storeSet s k v = .ok (s ++ [(k, v)]) := by
            simp [storeSet, h1, h2, hget, h3]
          refine ⟨?_, ?_, ?_, ?_, ?_⟩
          · simp [hres, h1]
          · simp [hres, h2]
          · simp [hres, h3]
          · exact fun _ => ⟨_, hres⟩
          · intro e he
            rw [hres] at he
            simp at he

/-- Witness for C1 at a concrete input, covering the spec's own test case:
a 256-byte key is refused with the key-size error and the store is left
unmodified. -/
theorem set_error_characterization_witness :
    storeSet [("a", "hello")] keyA256 "x" = .error .keyTooLarge ∧
    storeAfterSet [("a", "hello")] keyA256 "x" = [("a", "hello")] := by
  have h := set_error_characterization [("a", "hello")] keyA256 "x" (by decide)
  have hk := h.1.mpr (by decide)
  exact ⟨hk, h.2.2.2.2 .keyTooLarge hk⟩

/-- Counterexample to C1 as stated: with a store of 100 distinct keys and a
fresh 256-byte key, the claim's capacity-error biconditional demands a
capacity error (the key is new and the store is full), but the code returns
the key-size error, which takes priority. -/
theorem set_error_iff_counterexample :
    (fullStore.map Prod.fst).Nodup ∧
    fullStore.length = 100 ∧
    storeGet fullStore keyA256 = none ∧
    byteLen keyA256 = 256 ∧
    storeSet fullStore keyA256 "x" = .error .keyTooLarge ∧
    ¬(storeSet fullStore keyA256 "x" = .error .capacityExceeded ↔
        storeGet fullStore keyA256 = none ∧ 100 ≤ fullStore.length) := by
  decide

/-! ### Claim C2 -/

/-- Claim C2, amended: every store reachable by a sequence of operations
from the empty store satisfies the invariants (keys at most 255 bytes,
values at most 1048576 bytes, at most 100 pairwise-distinct keys); and when
such a store holds exactly 100 distinct keys, `Set` of a new key of
admissible size with an admissible value fails with the capacity error,
while `Set` of an existing key with an admissible value still succeeds and
never changes the distinct-key count. -/
theorem store_invariants_preserved (ops : List (String × String)) :
    StoreInv (runOps ops) ∧
    (∀ k v, (runOps ops).length = MaxKeyCount →
      (storeGet (runOps ops) k = none → byteLen k ≤ MaxKeySize →
        byteLen v ≤ MaxValueSize →
        storeSet (runOps ops) k v = .error .capacityExceeded) ∧
      (∀ w, storeGet (runOps ops) k = some w → byteLen v ≤ MaxValueSize →
        ∃ s', storeSet (runOps ops) k v = .ok s' ∧
          s'.length = (runOps ops).length)) := by
  have hinv := storeInv_runOps ops
  refine ⟨hinv, ?_⟩
  intro k v hlen
  constructor
  · intro hget hk hv
    simp [storeSet, Nat.not_lt.mpr hk, Nat.not_lt.mpr hv, hget, hlen]
  · intro w hget hv
    have hk : byteLen k ≤ MaxKeySize := (hinv.1 _ (storeGet_mem hget)).1
    have hres : storeSet (runOps ops) k v = .ok (replaceVal (runOps ops) k v) := by
      simp [storeSet, Nat.not_lt.mpr hk, Nat.not_lt.mpr hv, hget]
    exact ⟨_, hres, length_replaceVal _ _ _⟩

/-- Witness for C2: after the 100 concrete `Set` calls of `ops100` the
invariants hold, and a fresh small key is refused with the capacity error. -/
theorem store_invariants_preserved_witness :
    StoreInv (runOps ops100) ∧
    storeSet (runOps ops100) "zz" "x" = .error .capacityExceeded := by
  have h := store_invariants_preserved ops100
  exact ⟨h.1, (h.2 "zz" "x" (by decide)).1 (by decide) (by decide) (by decide)⟩

/-- Counterexample to C2 as stated: a store reachable from the empty store
that holds exactly 100 distinct keys, yet `Set` of a new (256-byte) key
fails with the key-size error rather than the capacity error the claim
requires for every new key. -/
theorem capacity_error_counterexample :
    runOps ops100 = fullStore ∧
    fullStore.length = 100 ∧
    (fullStore.map Prod.fst).Nodup ∧
    storeGet fullStore keyB256 = none ∧
    storeSet fullStore keyB256 "x" ≠ .error .capacityExceeded := by
  decide

/-! ### Claim C3 -/

/-- Claim C3, amended: for a key and value within the size limits, if the
key is already present or the store is below the 100-key capacity, `Set`
then `Get` returns the value just written; and `Get` of a key absent from
the store returns no value (Go `found=false`) — lookup has no error
outcome. -/
theorem set_then_get (s : Store) (k v : String)
    (hk : byteLen k ≤ MaxKeySize) (hv : byteLen v ≤ MaxValueSize)
    (hroom : storeGet s k ≠ none ∨ s.length < MaxKeyCount) :
    storeGet (storeAfterSet s k v) k = some v ∧
    ∀ (t : Store) (q : String), (∀ p ∈ t, p.1 ≠ q) → storeGet t q = none := by
  constructor
  · obtain ⟨s', hs'⟩ := storeSet_ok_of_room s k v hk hv hroom
    unfold storeAfterSet
    rw [hs']
    exact storeGet_of_storeSet_ok hs'
  · exact fun t q h => (storeGet_eq_none_iff t q).mpr h

/-- Witness for C3 at a concrete input. -/
theorem set_then_get_witness :
    storeGet (storeAfterSet [("a", "hello")] "b" "world") "b" = some "world" ∧
    storeGet [("a", "hello")] "b" = none := by
  have h := set_then_get [("a", "hello")] "b" "world" (by decide) (by decide)
    (Or.inr (by decide))
  exact ⟨h.1, h.2 [("a", "hello")] "b" (by decide)⟩

/-- Counterexample to C3 as stated: on a store already holding 100 distinct
keys, `Set` of a fresh small key within all size limits fails on capacity,
so the following `Get` finds nothing instead of the value just written. -/
theorem set_get_counterexample :
    byteLen "zq" ≤ MaxKeySize ∧ byteLen "x" ≤ MaxValueSize ∧
    fullStore.length = 100 ∧
    storeGet (storeAfterSet fullStore "zq" "x") "zq" = none := by
  decide

/-! ### Claim C4 -/

/-- The access-control decision layer at the handler level: for a request
whose source IP is outside the configured CIDR, the default ACCEPT mode
(chosen when no firewall flag is set) answers 403 with the access-denied
message, REJECT answers 403 with the distinct firewall-rejection message,
and DROP makes the handlers themselves produce nothing (HTTP hijacks and
closes; the UDP handler returns nil) — leaving the store untouched; with
no CIDR configured, or the IP inside the range, the request proceeds to
the command handler. -/
theorem access_control_outcomes (ac : AccessControl) (cidr : IPNet) (ip : Nat)
    (next : HttpHandler) (req : HttpRequest) (s : Store) (cmd : String)
    (hip : req.remoteIP = some ip) :
    firewallModeOfFlags false false false = "ACCEPT" ∧
    (ac.allowedCIDR = some cidr → cidr.contains ip = false →
      ((ac.firewallMode = "ACCEPT" →
          accessMiddleware ac next req s =
            (.response (sendJSONResponse 403
              "Access denied: Your IP is not in the allowed range" "" "" none), s) ∧
          handleUDPCommand cmd ip ac s =
            (some { status := 403,
                    message := "Access denied: Your IP is not in the allowed range" }, s)) ∧
       (ac.firewallMode = "REJECT" →
          accessMiddleware ac next req s =
            (.response (sendJSONResponse 403
              "Connection rejected by firewall: Your IP is not in the allowed range" "" "" none), s) ∧
          handleUDPCommand cmd ip ac s =
            (some { status := 403,
                    message := "Connection rejected by firewall: Your IP is not in the allowed range" }, s)) ∧
       (ac.firewallMode = "DROP" →
          accessMiddleware ac next req s = (.silentClose, s) ∧
          handleUDPCommand cmd ip ac s = (none, s)))) ∧
    ((ac.allowedCIDR = none ∨ (ac.allowedCIDR = some cidr ∧ cidr.contains ip = true)) →
      accessMiddleware ac next req s = (.response (next req s).1, (next req s).2) ∧
      handleUDPCommand cmd ip ac s = (some (udpDispatch cmd s).1, (udpDispatch cmd s).2)) ∧
    ("Access denied: Your IP is not in the allowed range" ≠
      "Connection rejected by firewall: Your IP is not in the allowed range") := by
  refine ⟨rfl, ?_, ?_, by decide⟩
  · intro hc hout
    refine ⟨?_, ?_, ?_⟩ <;> intro hm <;>
      exact ⟨by simp [accessMiddleware, hip, hc, hout, hm],
             by simp [handleUDPCommand, hc, hout, hm]⟩
  · intro hc
    rcases hc with hc | ⟨hc, hin⟩
    · exact ⟨by simp [accessMiddleware, hc], by simp [handleUDPCommand, hc]⟩
    · exact ⟨by simp [accessMiddleware, hip, hc, hin],
             by simp [handleUDPCommand, hc, hin]⟩

/-- The preceding decision-layer theorem at concrete inputs: 10.0.0.1 is
outside 192.168.1.0/24; ACCEPT mode answers 403 with the access-denied
message over HTTP, and in DROP mode the UDP handler returns nil. -/
theorem access_control_outcomes_witness :
    accessMiddleware { allowedCIDR := some cidr24, firewallMode := "ACCEPT" }
        pingHandler
        { method := "GET", path := "/api/ping", remoteIP := some ip10, query := [] } [] =
      (.response (sendJSONResponse 403
        "Access denied: Your IP is not in the allowed range" "" "" none), []) ∧
    handleUDPCommand "PING" ip10
        { allowedCIDR := some cidr24, firewallMode := "DROP" } [] = (none, []) := by
  have h1 := access_control_outcomes
    { allowedCIDR := some cidr24, firewallMode := "ACCEPT" } cidr24 ip10 pingHandler
    { method := "GET", path := "/api/ping", remoteIP := some ip10, query := [] } [] "PING" rfl
  have h2 := access_control_outcomes
    { allowedCIDR := some cidr24, firewallMode := "DROP" } cidr24 ip10 pingHandler
    { method := "GET", path := "/api/ping", remoteIP := some ip10, query := [] } [] "PING" rfl
  exact ⟨((h1.2.1 rfl (by decide)).1 rfl).1, ((h2.2.1 rfl (by decide)).2.2 rfl).2⟩

/-- Claim C4 (a code bug in main.go): in DROP mode the handler layer
produces no response — `accessMiddleware` hijacks and closes the HTTP
connection without a byte, and `handleUDPCommand` returns nil as its own
comment says ("return nil (no response)") — but the receive loop in
`startUDPServer` passes that nil response to `conn.WriteToUDP`
unconditionally, so a blocked UDP caller is sent a zero-length datagram
rather than nothing at all: its read completes with 0 bytes instead of
timing out.  ACCEPT and REJECT, by contrast, transmit their 403 responses
exactly as claimed. -/
theorem udp_drop_transmits_empty_datagram :
    cidr24.contains ip10 = false ∧
    (handleUDPCommand "PING" ip10
        { allowedCIDR := some cidr24, firewallMode := "DROP" } []).1 = none ∧
    udpServe "PING" ip10
        { allowedCIDR := some cidr24, firewallMode := "DROP" } [] =
      (some .emptyDatagram, []) ∧
    accessMiddleware { allowedCIDR := some cidr24, firewallMode := "DROP" }
        pingHandler
        { method := "GET", path := "/api/ping", remoteIP := some ip10, query := [] } [] =
      (.silentClose, []) ∧
    (udpServe "PING" ip10
        { allowedCIDR := some cidr24, firewallMode := "ACCEPT" } []).1 =
      some (.json { status := 403,
                    message := "Access denied: Your IP is not in the allowed range",
                    key := none, value := none, data := none }) ∧
    (udpServe "PING" ip10
        { allowedCIDR := some cidr24, firewallMode := "REJECT" } []).1 =
      some (.json { status := 403,
                    message := "Connection rejected by firewall: Your IP is not in the allowed range",
                    key := none, value := none, data := none }) := by
  decide

/-! ### Claim C5 -/

/-- Claim C5 (a code bug in main.go): `notFoundHandler` is not wrapped in
`accessMiddleware`, so an HTTP request to an unregistered path from an IP
outside the CIDR range in DROP mode receives a 404 response — bytes are
sent to a caller the firewall was meant to drop — while the same request to
a registered path is silently dropped as specified. -/
theorem notfound_route_bypasses_access_control :
    cidr24.contains ip10 = false ∧
    httpServe { allowedCIDR := some cidr24, firewallMode := "DROP" }
        { method := "GET", path := "/nope", remoteIP := some ip10, query := [] } [] =
      (.response (sendJSONResponse 404 "Route '/nope' not found" "" "" none), []) ∧
    httpServe { allowedCIDR := some cidr24, firewallMode := "DROP" }
        { method := "GET", path := "/api/ping", remoteIP := some ip10, query := [] } [] =
      (.silentClose, []) := by
  decide

/-! ### Claim C6 -/

/-- Claim C6, amended: a GET of an absent key yields status 404 with the
message interpolating the key on both transports; the key field of the
marshalled response echoes the key on the UDP transport, but over HTTP the
key field is absent because `sendJSONResponse` attaches key and value only
to status-200 responses. -/
theorem get_notfound_responses (s : Store) (k : String) (req : HttpRequest)
    (cmd : String) (hk : k ≠ "") (habs : storeGet s k = none)
    (hm : req.method = "GET") (hq : queryGet req.query "k" = k)
    (hcmd : fields cmd = ["GET", k]) :
    getHandler req s =
      (sendJSONResponse 404 ("Key '" ++ k ++ "' not found") k "" none, s) ∧
    (marshal (getHandler req s).1).status = 404 ∧
    (marshal (getHandler req s).1).message = "Key '" ++ k ++ "' not found" ∧
    (marshal (getHandler req s).1).key = none ∧
    udpDispatch cmd s =
      ({ status := 404, message := "Key '" ++ k ++ "' not found", key := k }, s) ∧
    (marshal (udpDispatch cmd s).1).key = some k := by
  have ht : toUpperStr "GET" = "GET" := by decide
  have hh : getHandler req s =
      (sendJSONResponse 404 ("Key '" ++ k ++ "' not found") k "" none, s) := by
    simp [getHandler, hm, hq, hk, habs]
  have hu : udpDispatch cmd s =
      ({ status := 404, message := "Key '" ++ k ++ "' not found", key := k }, s) := by
    simp [udpDispatch, hcmd, ht, habs]
  refine ⟨hh, ?_, ?_, ?_, hu, ?_⟩
  · rw [hh]
    simp [sendJSONResponse, marshal]
  · rw [hh]
    simp [sendJSONResponse, marshal]
  · rw [hh]
    simp [sendJSONResponse, marshal]
  · rw [hu]
    simp [marshal, hk]

/-- Witness for C6 at a concrete input: `GET b` against the empty store. -/
theorem get_notfound_responses_witness :
    getHandler { method := "GET", path := "/api/get", remoteIP := some 1,
                 query := [("k", "b")] } [] =
      (sendJSONResponse 404 "Key 'b' not found" "b" "" none, []) ∧
    (marshal (udpDispatch "GET b" []).1).key = some "b" := by
  have h := get_notfound_responses [] "b"
    { method := "GET", path := "/api/get", remoteIP := some 1, query := [("k", "b")] }
    "GET b" (by decide) (by decide) rfl (by decide) (by decide)
  exact ⟨h.1, h.2.2.2.2.2⟩

/-- Counterexample to C6 as stated: over HTTP, `GET` of the absent key "b"
yields the 404 message, but the marshalled response carries no key field at
all, where the claim requires the key to be echoed on both transports. -/
theorem http_get_notfound_key_counterexample :
    (marshal (getHandler
        { method := "GET", path := "/api/get", remoteIP := some 1,
          query := [("k", "b")] } []).1).status = 404 ∧
    (marshal (getHandler
        { method := "GET", path := "/api/get", remoteIP := some 1,
          query := [("k", "b")] } []).1).key = none ∧
    (marshal (getHandler
        { method := "GET", path := "/api/get", remoteIP := some 1,
          query := [("k", "b")] } []).1).key ≠ some "b" := by
  decide

/-! ### Claim C7 -/

/-- Claim C7, amended: over HTTP every non-200 response is marshalled with
neither key nor value (`sendJSONResponse` drops them); but over UDP the 404
key-not-found response and the 400 `SET`-error response do carry the key
(and no value), because the UDP branches fill the response struct
directly. -/
theorem key_value_population (st : Nat) (msg key value : String)
    (d : Option StatusInfo) (s : Store) (cmd k : String) :
    (st ≠ 200 →
      (marshal (sendJSONResponse st msg key value d)).key = none ∧
      (marshal (sendJSONResponse st msg key value d)).value = none) ∧
    (fields cmd = ["GET", k] → k ≠ "" → storeGet s k = none →
      (marshal (udpDispatch cmd s).1).status = 404 ∧
      (marshal (udpDispatch cmd s).1).key = some k ∧
      (marshal (udpDispatch cmd s).1).value = none) ∧
    (∀ (vt : String) (vts : List String) (e : SetError),
      fields cmd = "SET" :: k :: vt :: vts → k ≠ "" →
      storeSet s k (String.intercalate " " (vt :: vts)) = .error e →
      (marshal (udpDispatch cmd s).1).status = 400 ∧
      (marshal (udpDispatch cmd s).1).key = some k ∧
      (marshal (udpDispatch cmd s).1).value = none) := by
  refine ⟨?_, ?_, ?_⟩
  · intro hst
    cases d <;> simp [sendJSONResponse, marshal, hst]
  · intro hcmd hk habs
    have ht : toUpperStr "GET" = "GET" := by decide
    simp [udpDispatch, hcmd, ht, habs, marshal, hk]
  · intro vt vts e hcmd hk herr
    have ht : toUpperStr "SET" = "SET" := by decide
    simp [udpDispatch, hcmd, ht, herr, marshal, hk]

/-- Witness for C7 at concrete inputs, one per conjunct. -/
theorem key_value_population_witness :
    (marshal (sendJSONResponse 404 "Key 'b' not found" "b" "" none)).key = none ∧
    (marshal (udpDispatch "GET b" []).1).key = some "b" ∧
    (marshal (udpDispatch ("SET " ++ keyA256 ++ " x") []).1).key = some keyA256 := by
  have h1 := (key_value_population 404 "Key 'b' not found" "b" "" none
    [] "GET b" "b").1 (by decide)
  have h2 := (key_value_population 404 "" "" "" none [] "GET b" "b").2.1
    (by decide) (by decide) (by decide)
  have h3 := (key_value_population 400 "" "" "" none []
    ("SET " ++ keyA256 ++ " x") keyA256).2.2 "x" [] .keyTooLarge
    (by decide) (by decide) (by decide)
  exact ⟨h1.1, h2.2.1, h3.2.1⟩

/-- Counterexample to C7 as stated: the UDP 404 key-not-found response for
`GET b` carries the key "b", where the claim says a 404 response carries
neither key nor value. -/
theorem udp_notfound_key_counterexample :
    (udpDispatch "GET b" []).1.status = 404 ∧
    (marshal (udpDispatch "GET b" []).1).key = some "b" := by
  decide

/-! ### Claim C8 -/

/-- Claim C8: a UDP `SET` datagram with at least three whitespace-separated
tokens uses the second token as the key and hands the store all remaining
tokens rejoined with a single space as the value; whenever that store call
succeeds, the key maps to the rejoined value afterwards. -/
theorem udp_set_tokenization (cmd : String) (s : Store) (k vt : String)
    (vts : List String) (hcmd : fields cmd = "SET" :: k :: vt :: vts) :
    (udpDispatch cmd s).2 = storeAfterSet s k (String.intercalate " " (vt :: vts)) ∧
    ∀ s', storeSet s k (String.intercalate " " (vt :: vts)) = .ok s' →
      storeGet (udpDispatch cmd s).2 k = some (String.intercalate " " (vt :: vts)) := by
  have ht : toUpperStr "SET" = "SET" := by decide
  have h1 : (udpDispatch cmd s).2 =
      storeAfterSet s k (String.intercalate " " (vt :: vts)) := by
    cases hres : storeSet s k (String.intercalate " " (vt :: vts)) with
    | ok s' => simp [udpDispatch, hcmd, ht, hres, storeAfterSet]
    | error e => simp [udpDispatch, hcmd, ht, hres, storeAfterSet]
  refine ⟨h1, ?_⟩
  intro s' hok
  rw [h1]
  unfold storeAfterSet
  rw [hok]
  exact storeGet_of_storeSet_ok hok

/-- Witness for C8: the spec's own datagram `SET greeting Hello, World!`
stores the value "Hello, World!". -/
theorem udp_set_tokenization_witness :
    (udpDispatch "SET greeting Hello, World!" []).2 = [("greeting", "Hello, World!")] ∧
    storeGet (udpDispatch "SET greeting Hello, World!" []).2 "greeting" =
      some "Hello, World!" := by
  have h := udp_set_tokenization "SET greeting Hello, World!" [] "greeting"
    "Hello," ["World!"] (by decide)
  constructor
  · rw [h.1]
    decide
  · have hv : storeGet (udpDispatch "SET greeting Hello, World!" []).2 "greeting" =
        some (String.intercalate " " ["Hello,", "World!"]) :=
      h.2 [("greeting", "Hello, World!")] (by decide)
    rw [hv]
    decide

/-! ### Claim C9 -/

/-- Claim C9: for a store with pairwise-distinct keys, the status snapshot
reports the number of distinct keys and the sum over all entries of key
plus value byte length, and the UDP `STATUS` command returns exactly that
snapshot as its data with status 200, leaving the store untouched. -/
theorem status_snapshot (s : Store) (cmd : String)
    (hnd : (s.map Prod.fst).Nodup) (hcmd : fields cmd = ["STATUS"]) :
    (getStatus s).keyCount = ((s.map Prod.fst).dedup).length ∧
    (getStatus s).memoryUsage = (s.map fun p => byteLen p.1 + byteLen p.2).sum ∧
    udpDispatch cmd s =
      ({ status := 200, message := "Status retrieved successfully", key := "status",
         data := some (getStatus s) }, s) := by
  have ht : toUpperStr "STATUS" = "STATUS" := by decide
  refine ⟨?_, ?_, ?_⟩
  · rw [hnd.dedup, List.length_map]
    rfl
  · rw [show (getStatus s).memoryUsage =
        s.foldl (fun acc p => acc + (byteLen p.1 + byteLen p.2)) 0 from rfl,
      foldl_add_eq_sum, Nat.zero_add]
  · simp [udpDispatch, hcmd, ht]

/-- Witness for C9: the spec's concrete scenario — after `SET a hello` on
the empty store, `STATUS` reports one key and six bytes. -/
theorem status_snapshot_witness :
    (getStatus (udpDispatch "SET a hello" []).2).keyCount = 1 ∧
    (getStatus (udpDispatch "SET a hello" []).2).memoryUsage = 6 ∧
    udpDispatch "STATUS" (udpDispatch "SET a hello" []).2 =
      ({ status := 200, message := "Status retrieved successfully", key := "status",
         data := some { keyCount := 1, memoryUsage := 6 } },
       (udpDispatch "SET a hello" []).2) := by
  have h := status_snapshot ((udpDispatch "SET a hello" []).2) "STATUS"
    (by decide) (by decide)
  refine ⟨?_, ?_, ?_⟩
  · rw [h.1]
    decide
  · rw [h.2.1]
    decide
  · rw [h.2.2]
    decide

/-! ### Claim C10 -/

/-- Claim C10: an HTTP `SET` with the value parameter present but empty is
rejected with 400 "Missing value parameter" and the store is unchanged; yet
the store itself accepts an empty value, so the empty string can never be
stored through the HTTP transport. -/
theorem http_set_empty_value (s : Store) (req : HttpRequest) (k : String)
    (hm : req.method = "POST" ∨ req.method = "PUT")
    (hk : queryGet req.query "k" = k) (hkne : k ≠ "")
    (hv : queryGet req.query "v" = "") :
    setHandler req s =
      (sendJSONResponse 400 "Missing value parameter" "" "" none, s) ∧
    (byteLen k ≤ MaxKeySize → (storeGet s k ≠ none ∨ s.length < MaxKeyCount) →
      ∃ s', storeSet s k "" = .ok s' ∧ storeGet s' k = some "") := by
  constructor
  · rcases hm with hm | hm <;> simp [setHandler, hm, hk, hkne, hv]
  · intro hklen hroom
    obtain ⟨s', hs'⟩ := storeSet_ok_of_room s k "" hklen (by decide) hroom
    exact ⟨s', hs', storeGet_of_storeSet_ok hs'⟩

/-- Witness for C10 at a concrete input: `POST /api/set?k=a&v=` with the
value parameter present but empty. -/
theorem http_set_empty_value_witness :
    setHandler { method := "POST", path := "/api/set", remoteIP := some 1,
                 query := [("k", "a"), ("v", "")] } [] =
      (sendJSONResponse 400 "Missing value parameter" "" "" none, []) ∧
    ∃ s', storeSet [] "a" "" = .ok s' := by
  have h := http_set_empty_value []
    { method := "POST", path := "/api/set", remoteIP := some 1,
      query := [("k", "a"), ("v", "")] } "a" (Or.inl rfl) (by decide) (by decide)
    (by decide)
  obtain ⟨s', hs', _⟩ := h.2 (by decide) (Or.inr (by decide))
  exact ⟨h.1, s', hs'⟩

end Kvapi
